import Mathlib

/-!
# kube-resources: a shallow embedding of `main.go`

The program fetches four name-keyed mappings from a cluster (node usage, node
specs, pod usage, pod specs), joins pod usage with pod specs, accumulates the
declared requests and limits per node, and prints two tables.  This file
embeds the data model, the truncation helper `ml`, `formatResourceList` and
the two loops of `Gather`, and proves properties of them.

Conventions.

* A Go `string` is a byte sequence; `len` and slicing count bytes.  A string
  is modelled as a list with one element per byte.
* A Go `map[string]V` is modelled by the list of its entries in the order in
  which `range` visits them; a lookup of an absent key gives the zero value.
* An index out of range is a run-time panic that aborts the program before
  anything is rendered; it is modelled by `Except.error`.
-/

namespace KubeResources

/-- One element per byte of the Go string. -/
abbrev GoString := List Char

/-- The constant `maxLength` of `main.go`. -/
def maxLength : Nat := 30

/-- The closure `ml` of `Gather`:
`if len(s) > maxLength { return s[:maxLength/2] + "..." + s[len(s)-maxLength/2:] }; return s`. -/
def ml (s : GoString) : GoString :=
  if s.length > maxLength then
    s.take (maxLength / 2) ++ "...".toList ++ s.drop (s.length - maxLength / 2)
  else
    s

/-! ## The quantity library (`k8s.io/apimachinery/pkg/api/resource`)

The library is a dependency, not part of `main.go`.  Its `Quantity` is an
exact decimal number with a display format.  Every quantity the API delivers
is a multiple of `10^-9` (the library's finest scale, `Nano`), and `Add` is
exact, so a quantity is represented by its value in nano-units. -/

/-- The library's `Format`; `unset` is the empty format of `Quantity{}`. -/
inductive Format where
  | unset
  | DecimalExponent
  | BinarySI
  | DecimalSI
  deriving DecidableEq, Repr

/-- Library model of `resource.Quantity`: the value is `nano * 10^-9`. -/
structure Quantity where
  nano : Int
  Format : Format
  deriving DecidableEq, Repr

namespace Quantity

/-- The Go zero value `resource.Quantity{}`. -/
def zero : Quantity := ⟨0, Format.unset⟩

/-- Library model of `(*Quantity).Add`: the value becomes the exact sum, and
"if the current value is zero, the format of the quantity will be updated to
the format of y". -/
def Add (q y : Quantity) : Quantity :=
  ⟨q.nano + y.nano, if q.nano = 0 then y.Format else q.Format⟩

/-- The library's `Scale` constant `resource.Mega`, a power of ten. -/
def Mega : Nat := 6

/-- Library model of `(*Quantity).ScaledValue(scale)` for a scale `≥ 0`: the
value divided by `10^scale`, and "the value returned, if not exact, is
rounded away from zero". -/
def ScaledValue (q : Quantity) (scale : Nat) : Int :=
  let d : Int := 10 ^ (scale + 9)
  if q.nano % d = 0 then q.nano / d
  else if 0 < q.nano then q.nano / d + 1
  else -((-q.nano) / d + 1)

/-- Library helper `removeInt64Factors` / `removeBigIntFactors`: divide
`amount` by `base` as long as the division is exact, counting the divisions. -/
def removeFactors (base : Int) : Nat → Int → Nat → Int × Nat
  | 0, amount, times => (amount, times)
  | fuel + 1, amount, times =>
    if amount ≠ 0 ∧ amount % base = 0 then removeFactors base fuel (amount / base) (times + 1)
    else (amount, times)

/-- Library model of `AsCanonicalBytes`: the mantissa without trailing zeros
and the decimal exponent, the exponent then lowered to a multiple of three. -/
def asCanonical (q : Quantity) : Int × Int :=
  let r := removeFactors 10 q.nano.natAbs q.nano 0
  let amount := r.1
  let exponent : Int := (r.2 : Int) - 9
  match Int.tmod exponent 3 with
  | 1 => (amount * 10, exponent - 1)
  | -2 => (amount * 10, exponent - 1)
  | 2 => (amount * 100, exponent - 2)
  | -1 => (amount * 100, exponent - 2)
  | _ => (amount, exponent)

/-- Library table of the decimal SI suffixes (`n u m "" k M G T P E`). -/
def decSuffix (exponent : Int) : GoString :=
  match exponent with
  | -9 => "n".toList
  | -6 => "u".toList
  | -3 => "m".toList
  | 0 => []
  | 3 => "k".toList
  | 6 => "M".toList
  | 9 => "G".toList
  | 12 => "T".toList
  | 15 => "P".toList
  | 18 => "E".toList
  | _ => []

/-- Library table of the binary SI suffixes (`"" Ki Mi Gi Ti Pi Ei`), indexed
by the power of 1024. -/
def binSuffix (times : Nat) : GoString :=
  match times with
  | 1 => "Ki".toList
  | 2 => "Mi".toList
  | 3 => "Gi".toList
  | 4 => "Ti".toList
  | 5 => "Pi".toList
  | 6 => "Ei".toList
  | _ => []

/-- Decimal digits of an integer, as `strconv.AppendInt(_, n, 10)`. -/
def itoa (n : Int) : GoString := (Int.repr n).toList

/-- Library model of `(*Quantity).String`, the canonical form computed by
`CanonicalizeBytes`: zero prints as `0`; a `BinarySI` quantity below 1024 in
magnitude or with a fractional part prints as `DecimalSI`; an unset format
prints as `DecimalExponent`. -/
def String (q : Quantity) : GoString :=
  if q.nano = 0 then "0".toList
  else
    let fmt : KubeResources.Format :=
      match q.Format with
      | Format.DecimalExponent => Format.DecimalExponent
      | Format.DecimalSI => Format.DecimalSI
      | Format.BinarySI =>
        if -1024 * 10 ^ 9 < q.nano ∧ q.nano < 1024 * 10 ^ 9 then Format.DecimalSI
        else if q.nano % 10 ^ 9 = 0 then Format.BinarySI
        else Format.DecimalSI
      | Format.unset => Format.DecimalExponent
    match fmt with
    | Format.BinarySI =>
      let v := q.nano / 10 ^ 9
      let r := removeFactors 1024 v.natAbs v 0
      itoa r.1 ++ binSuffix r.2
    | Format.DecimalSI =>
      let c := asCanonical q
      itoa c.1 ++ decSuffix c.2
    | _ =>
      let c := asCanonical q
      if c.2 = 0 then itoa c.1 else itoa c.1 ++ "e".toList ++ itoa c.2

end Quantity

/-- A Go map `map[string]V`: its entries in iteration order. -/
abbrev GoMap (V : Type) := List (GoString × V)

/-- The optional result of a map lookup (the `val, ok := m[k]` form). -/
def GoMap.find {V : Type} (m : GoMap V) (k : GoString) : Option V :=
  match m with
  | [] => none
  | (k', v) :: rest => if k' = k then some v else GoMap.find rest k

/-- The map lookup `m[k]`, which gives the zero value for an absent key. -/
def GoMap.get {V : Type} (zero : V) (m : GoMap V) (k : GoString) : V :=
  (GoMap.find m k).getD zero

/-- The type `corev1.ResourceList`, a `map[ResourceName]resource.Quantity`. -/
abbrev ResourceList := GoMap Quantity

/-- Library accessor `(*ResourceList).Cpu`: the value under `"cpu"`, or
`&resource.Quantity{Format: resource.DecimalSI}`. -/
def ResourceList.Cpu (rl : ResourceList) : Quantity :=
  match GoMap.find rl "cpu".toList with
  | some val => val
  | none => ⟨0, Format.DecimalSI⟩

/-- Library accessor `(*ResourceList).Memory`: the value under `"memory"`, or
`&resource.Quantity{Format: resource.BinarySI}`. -/
def ResourceList.Memory (rl : ResourceList) : Quantity :=
  match GoMap.find rl "memory".toList with
  | some val => val
  | none => ⟨0, Format.BinarySI⟩

/-- The pattern `fmt.Sprintf("cpu=%s mem=%dMi", cpu, mem)` used three times in
`main.go`. -/
def sprintfCpuMem (cpu : GoString) (mem : Int) : GoString :=
  "cpu=".toList ++ cpu ++ " mem=".toList ++ Quantity.itoa mem ++ "Mi".toList

/-- The function `formatResourceList` of `main.go`. -/
def formatResourceList (rl : ResourceList) : GoString :=
  sprintfCpuMem rl.Cpu.String (rl.Memory.ScaledValue Quantity.Mega)

/-- The quantity `n` milli-units, written `<n>m`. -/
def milli (n : Int) : Quantity := ⟨n * 10 ^ 6, Format.DecimalSI⟩

/-- The quantity `n * 2^20`, written `<n>Mi`. -/
def mebi (n : Int) : Quantity := ⟨n * 2 ^ 20 * 10 ^ 9, Format.BinarySI⟩

/-! ## The entity model of `main.go` -/

/-- The struct `NodeMetrics`. -/
structure NodeMetrics where
  Name : GoString
  Usage : ResourceList
  deriving DecidableEq, Repr

/-- The struct `NodeResources`. -/
structure NodeResources where
  Name : GoString
  Allocatable : ResourceList
  Capacity : ResourceList
  deriving DecidableEq, Repr

/-- The struct `ContainerMetrics`. -/
structure ContainerMetrics where
  Name : GoString
  Usage : ResourceList
  deriving DecidableEq, Repr

/-- The struct `PodMetrics`. -/
structure PodMetrics where
  Name : GoString
  ContainerMetrics : List ContainerMetrics
  deriving DecidableEq, Repr

/-- The struct `ContainerResources`. -/
structure ContainerResources where
  Name : GoString
  ResourceRequests : ResourceList
  ResourceLimits : ResourceList
  deriving DecidableEq, Repr

/-- The struct `PodResources`. -/
structure PodResources where
  Name : GoString
  Namespace : GoString
  NodeName : GoString
  ContainerResources : List ContainerResources
  deriving DecidableEq, Repr

/-- The Go zero value of `NodeResources`, returned by a lookup of an absent node. -/
def NodeResources.zero : NodeResources := ⟨[], [], []⟩

/-- The Go zero value of `PodResources`, returned by a lookup of an absent pod. -/
def PodResources.zero : PodResources := ⟨[], [], [], []⟩

/-- The run-time panic `index out of range [index] with length length`. -/
structure Panic where
  index : Nat
  length : Nat
  deriving DecidableEq, Repr

/-- A row handed to the table writer: one string per column. -/
abbrev Row := List GoString

/-- The accumulators `nodeRequests` and `nodeLimits`, of type
`map[string][]corev1.ResourceList`; an absent key reads as the nil slice. -/
abbrev NodeAcc := GoString → List ResourceList

/-- The assignment `acc[k] = append(acc[k], rl)`. -/
def NodeAcc.append (acc : NodeAcc) (k : GoString) (rl : ResourceList) : NodeAcc :=
  fun k' => if k' = k then acc k' ++ [rl] else acc k'

/-- The variables the pod loop of `Gather` writes: `data`, `nodeRequests`,
`nodeLimits`. -/
structure LoopState where
  data : List Row
  nodeRequests : NodeAcc
  nodeLimits : NodeAcc

/-- The state before the pod loop: no rows and two empty maps. -/
def LoopState.init : LoopState := ⟨[], fun _ => [], fun _ => []⟩

/-- The row appended to `data` for the observed container `cm` paired with the
declared container `cr` of pod `n` with spec `r`. -/
def podRow (n : GoString) (r : PodResources) (cm : ContainerMetrics) (cr : ContainerResources) :
    Row :=
  [ml r.Namespace, ml n, ml cm.Name, formatResourceList cm.Usage,
   formatResourceList cr.ResourceRequests, formatResourceList cr.ResourceLimits]

/-- The inner loop `for i := range m.ContainerMetrics` of `Gather`, from index
`i` on, `cms` being the containers of `m` not yet visited.  The index
expression `r.ContainerResources[i]` panics when `i` is out of range. -/
def containerLoop (n : GoString) (r : PodResources) :
    Nat → List ContainerMetrics → LoopState → Except Panic LoopState
  | _, [], st => Except.ok st
  | i, cm :: cms, st =>
    match r.ContainerResources[i]? with
    | none => Except.error ⟨i, r.ContainerResources.length⟩
    | some cr =>
      containerLoop n r (i + 1) cms
        { data := st.data ++ [podRow n r cm cr]
          nodeRequests := st.nodeRequests.append r.NodeName cr.ResourceRequests
          nodeLimits := st.nodeLimits.append r.NodeName cr.ResourceLimits }

/-- The outer loop `for n := range kr.podMetrics` of `Gather`, over the entries
of `podMetrics` in iteration order. -/
def podLoop (podResources : GoMap PodResources) :
    List (GoString × PodMetrics) → LoopState → Except Panic LoopState
  | [], st => Except.ok st
  | (n, m) :: rest, st =>
    match containerLoop n (GoMap.get PodResources.zero podResources n) 0 m.ContainerMetrics st with
    | Except.error e => Except.error e
    | Except.ok st' => podLoop podResources rest st'

/-- The loop `for _, rl := range ...` that adds up `rl.Cpu()` from
`resource.Quantity{}`. -/
def cpuTotal (rls : List ResourceList) : Quantity :=
  rls.foldl (fun total rl => total.Add rl.Cpu) Quantity.zero

/-- The loop `for _, rl := range ...` that adds up `rl.Memory()` from
`resource.Quantity{}`. -/
def memTotal (rls : List ResourceList) : Quantity :=
  rls.foldl (fun total rl => total.Add rl.Memory) Quantity.zero

/-- The strings `requestsString` and `limitsString` of the node loop. -/
def totalsString (rls : List ResourceList) : GoString :=
  sprintfCpuMem (cpuTotal rls).String ((memTotal rls).ScaledValue Quantity.Mega)

/-- The body of the loop `for n := range kr.nodeMetrics` of `Gather`: the row
of node `n`. -/
def nodeRow (nodeResources : GoMap NodeResources) (nodeRequests nodeLimits : NodeAcc)
    (n : GoString) (m : NodeMetrics) : Row :=
  let r := GoMap.get NodeResources.zero nodeResources n
  [ml n, formatResourceList m.Usage, formatResourceList r.Allocatable,
   totalsString (nodeRequests n), totalsString (nodeLimits n)]

/-- The loop `for n := range kr.nodeMetrics` of `Gather`. -/
def nodeLoop (nodeMetrics : GoMap NodeMetrics) (nodeResources : GoMap NodeResources)
    (nodeRequests nodeLimits : NodeAcc) : List Row :=
  nodeMetrics.map (fun e => nodeRow nodeResources nodeRequests nodeLimits e.1 e.2)

/-- The two row sets `Gather` hands to the table writer. -/
structure Report where
  podRows : List Row
  nodeRows : List Row
  deriving DecidableEq, Repr

/-- The method `Gather` after `wg.Wait()`, as a function of the four mappings.
A panic in the pod loop ends the program before either table is rendered. -/
def Gather (nodeMetrics : GoMap NodeMetrics) (nodeResources : GoMap NodeResources)
    (podMetrics : GoMap PodMetrics) (podResources : GoMap PodResources) : Except Panic Report :=
  match podLoop podResources podMetrics LoopState.init with
  | Except.error e => Except.error e
  | Except.ok st =>
    Except.ok ⟨st.data, nodeLoop nodeMetrics nodeResources st.nodeRequests st.nodeLimits⟩

/-! ## Reference notions for the join -/

/-- The value of a resource key in a quantity map, in nano-units, an absent
key counting as zero. -/
def quantityOrZero (rl : ResourceList) (key : GoString) : Int :=
  match GoMap.find rl key with
  | some q => q.nano
  | none => 0

/-- The rows of one pod when observed container `i` is paired with declared
container `i`. -/
def positionalRows (n : GoString) (m : PodMetrics) (r : PodResources) : List Row :=
  List.zipWith (podRow n r) m.ContainerMetrics r.ContainerResources

/-- The declared containers of a pod that are paired with an observed one:
the first `len(m.ContainerMetrics)` of the spec. -/
def pairedContainers (m : PodMetrics) (r : PodResources) : List ContainerResources :=
  r.ContainerResources.take m.ContainerMetrics.length

/-- Every pod of the usage mapping has a spec with at least as many containers
as its usage record. -/
def Aligned (podMetrics : GoMap PodMetrics) (podResources : GoMap PodResources) : Prop :=
  ∀ e ∈ podMetrics,
    e.2.ContainerMetrics.length ≤
      (GoMap.get PodResources.zero podResources e.1).ContainerResources.length

/-- The pods of the usage mapping whose spec `nodeName` is `k`. -/
def podsOn (podResources : GoMap PodResources) (k : GoString) (podMetrics : GoMap PodMetrics) :
    List (GoString × PodMetrics) :=
  podMetrics.filter
    (fun e => decide ((GoMap.get PodResources.zero podResources e.1).NodeName = k))

/-- The paired declared containers of every usage-mapping pod whose spec
`nodeName` is `k`. -/
def pairedOn (podResources : GoMap PodResources) (k : GoString) (podMetrics : GoMap PodMetrics) :
    List ContainerResources :=
  (podsOn podResources k podMetrics).flatMap
    (fun e => pairedContainers e.2 (GoMap.get PodResources.zero podResources e.1))

/-- The pod-level rows of the positional join over the whole usage mapping. -/
def joinRows (podResources : GoMap PodResources) (podMetrics : GoMap PodMetrics) : List Row :=
  podMetrics.flatMap
    (fun e => positionalRows e.1 e.2 (GoMap.get PodResources.zero podResources e.1))

/-- The requests of the paired declared containers, per node name. -/
def requestsOn (podResources : GoMap PodResources) (podMetrics : GoMap PodMetrics) : NodeAcc :=
  fun k => (pairedOn podResources k podMetrics).map (fun cr => cr.ResourceRequests)

/-- The limits of the paired declared containers, per node name. -/
def limitsOn (podResources : GoMap PodResources) (podMetrics : GoMap PodMetrics) : NodeAcc :=
  fun k => (pairedOn podResources k podMetrics).map (fun cr => cr.ResourceLimits)

/-- The hypothesis `Aligned` can be checked by evaluation. -/
instance Aligned.decidable (podMetrics : GoMap PodMetrics) (podResources : GoMap PodResources) :
    Decidable (Aligned podMetrics podResources) := by
  unfold Aligned
  infer_instance

/-! ## Test data -/

/-- A name of 29 bytes. -/
def name29 : GoString := "kube-system-metrics-server-ab".toList

/-- A name of 30 bytes. -/
def name30 : GoString := "kube-system-metrics-server-abc".toList

/-- A name of 31 bytes. -/
def name31 : GoString := "kube-system-metrics-server-abcd".toList

/-- The quantity map `{cpu: 500m, memory: 100Mi}`. -/
def rlA : ResourceList := [("cpu".toList, milli 500), ("memory".toList, mebi 100)]

/-- The quantity map `{cpu: 250m, memory: 50Mi}`. -/
def rlB : ResourceList := [("cpu".toList, milli 250), ("memory".toList, mebi 50)]

/-- The quantity map `{cpu: 100m, memory: 50Mi}`. -/
def rlC : ResourceList := [("cpu".toList, milli 100), ("memory".toList, mebi 50)]

/-- An observed usage `{cpu: 20m, memory: 30Mi}`. -/
def rlU : ResourceList := [("cpu".toList, milli 20), ("memory".toList, mebi 30)]

/-- The node name `worker-1`. -/
def worker1 : GoString := "worker-1".toList

/-- The node name `worker-2`. -/
def worker2 : GoString := "worker-2".toList

/-- A node-usage mapping with the nodes `worker-1` and `worker-2`. -/
def nodeMetrics2 : GoMap NodeMetrics :=
  [(worker1, ⟨worker1, rlA⟩), (worker2, ⟨worker2, rlB⟩)]

/-- A node-spec mapping with the nodes `worker-1` and `worker-2`. -/
def nodeResources2 : GoMap NodeResources :=
  [(worker1, ⟨worker1, rlA, rlA⟩), (worker2, ⟨worker2, rlA, rlA⟩)]

/-- A pod-usage mapping: the pods `pod-a` and `pod-b`, one container `app` each. -/
def podMetricsAB : GoMap PodMetrics :=
  [("pod-a".toList, ⟨"pod-a".toList, [⟨"app".toList, rlU⟩]⟩),
   ("pod-b".toList, ⟨"pod-b".toList, [⟨"app".toList, rlU⟩]⟩)]

/-- The same pod-usage mapping, visited in the other order. -/
def podMetricsBA : GoMap PodMetrics :=
  [("pod-b".toList, ⟨"pod-b".toList, [⟨"app".toList, rlU⟩]⟩),
   ("pod-a".toList, ⟨"pod-a".toList, [⟨"app".toList, rlU⟩]⟩)]

/-- A pod-spec mapping: `pod-a` and `pod-b` on `worker-1`, each with one
container requesting `cpu=100m, mem=50Mi`, with limits `cpu=500m, mem=100Mi`. -/
def podResourcesAB : GoMap PodResources :=
  [("pod-a".toList, ⟨"pod-a".toList, "default".toList, worker1, [⟨"app".toList, rlC, rlA⟩]⟩),
   ("pod-b".toList, ⟨"pod-b".toList, "default".toList, worker1, [⟨"app".toList, rlC, rlA⟩]⟩)]

/-- A pod with a declared spec and no observed usage. -/
def podSpecOnly : PodResources :=
  ⟨"pod-z".toList, "default".toList, worker2, [⟨"app".toList, rlA, rlA⟩]⟩

/-- A pod-usage mapping with one pod of two containers, `app` and `sidecar`. -/
def podMetricsTwo : GoMap PodMetrics :=
  [("web".toList, ⟨"web".toList, [⟨"app".toList, rlU⟩, ⟨"sidecar".toList, rlU⟩]⟩)]

/-- A spec of `web` that lists `app` before `sidecar`. -/
def podResourcesTwo : GoMap PodResources :=
  [("web".toList, ⟨"web".toList, "default".toList, worker1,
    [⟨"app".toList, rlC, rlA⟩, ⟨"sidecar".toList, rlB, rlB⟩]⟩)]

/-- The same spec of `web` with its container list permuted. -/
def podResourcesTwoSwapped : GoMap PodResources :=
  [("web".toList, ⟨"web".toList, "default".toList, worker1,
    [⟨"sidecar".toList, rlB, rlB⟩, ⟨"app".toList, rlC, rlA⟩]⟩)]

/-- A spec of `web` that lists only the container `app`. -/
def podResourcesOne : GoMap PodResources :=
  [("web".toList, ⟨"web".toList, "default".toList, worker1, [⟨"app".toList, rlC, rlA⟩]⟩)]

/-- A spec of `web` whose containers carry other names than the observed ones. -/
def podResourcesRenamed : GoMap PodResources :=
  [("web".toList, ⟨"web".toList, "default".toList, worker1,
    [⟨"main".toList, rlC, rlA⟩, ⟨"proxy".toList, rlB, rlB⟩]⟩)]

/-! ## The truncation helper -/

/-- Splitting a list of more than 30 elements into its first 15, its middle
and its last 15 elements. -/
theorem split_first_last (s : GoString) (h : 30 < s.length) :
    s = s.take 15 ++ (s.drop 15).take (s.length - 30) ++ s.drop (s.length - 15) := by
  have h1 : s.drop (s.length - 15) = (s.drop 15).drop (s.length - 30) := by
    rw [List.drop_drop]
    congr 1
    omega
  rw [h1, List.append_assoc, List.take_append_drop, List.take_append_drop]

/-- C1: `ml` returns a string of at most 30 bytes unchanged, and turns a longer
string into its first 15 bytes, then `...`, then its last 15 bytes. -/
theorem ml_boundary (s : GoString) :
    (s.length ≤ 30 → ml s = s) ∧
    (30 < s.length →
      ∃ first middle last : GoString,
        s = first ++ middle ++ last ∧ first.length = 15 ∧ last.length = 15 ∧
        ml s = first ++ "...".toList ++ last) := by
  constructor
  · intro h
    have : ¬ s.length > maxLength := by simp only [maxLength]; omega
    simp [ml, this]
  · intro h
    refine ⟨s.take 15, (s.drop 15).take (s.length - 30), s.drop (s.length - 15),
      split_first_last s h, ?_, ?_, ?_⟩
    · rw [List.length_take]; omega
    · rw [List.length_drop]; omega
    · have hlen : s.length > maxLength := by simp only [maxLength]; omega
      unfold ml
      rw [if_pos hlen]
      rfl

/-- The boundary lengths 29, 30 and 31 of C1. -/
theorem ml_boundary_witness :
    ml name29 = name29 ∧ ml name30 = name30 ∧
    ∃ first middle last : GoString,
      name31 = first ++ middle ++ last ∧ first.length = 15 ∧ last.length = 15 ∧
      ml name31 = first ++ "...".toList ++ last :=
  ⟨(ml_boundary name29).1 (by decide), (ml_boundary name30).1 (by decide),
   (ml_boundary name31).2 (by decide)⟩

/-- The length of `ml s` for a string of more than 30 bytes: 15 + 3 + 15. -/
theorem ml_length_long (s : GoString) (h : 30 < s.length) : (ml s).length = 33 := by
  have hlen : s.length > maxLength := by simp only [maxLength]; omega
  have hdots : "...".toList.length = 3 := by decide
  unfold ml
  rw [if_pos hlen]
  simp only [maxLength, List.length_append, List.length_take, List.length_drop, hdots]
  omega

/-- C2: on a name of 31 bytes `ml` gives 33 bytes, more than `maxLength` and
more than the name itself. -/
theorem ml_exceeds_maxLength :
    name31.length = 31 ∧ ml name31 = "kube-system-met...ics-server-abcd".toList ∧
    (ml name31).length = 33 ∧ ¬ (ml name31).length ≤ maxLength := by
  decide

/-! ## Quantities and their display -/

/-- C3: the totals of `{cpu: 500m, memory: 100Mi}` and `{cpu: 250m, memory: 50Mi}`
are 750m and 150Mi, and the display of that sum is `cpu=750m mem=158Mi`, since
`ScaledValue(resource.Mega)` divides the bytes by `10^6`, rounding up. -/
theorem totals_display_mega :
    cpuTotal [rlA, rlB] = milli 750 ∧ memTotal [rlA, rlB] = mebi 150 ∧
    (memTotal [rlA, rlB]).ScaledValue Quantity.Mega = 158 ∧
    totalsString [rlA, rlB] = "cpu=750m mem=158Mi".toList ∧
    formatResourceList [("cpu".toList, milli 750), ("memory".toList, mebi 150)]
      = "cpu=750m mem=158Mi".toList ∧
    totalsString [rlA, rlB] ≠ "cpu=750m mem=150Mi".toList := by
  decide

/-! ## The pod loop -/

/-- The inner loop succeeds when the spec has a container at every index it
visits, and then pairs by position. -/
theorem containerLoop_ok (n : GoString) (r : PodResources) :
    ∀ (cms : List ContainerMetrics) (i : Nat) (st : LoopState),
      i + cms.length ≤ r.ContainerResources.length →
      ∃ st', containerLoop n r i cms st = Except.ok st' ∧
        st'.data = st.data ++ List.zipWith (podRow n r) cms (r.ContainerResources.drop i) ∧
        (∀ k, st'.nodeRequests k = st.nodeRequests k ++
          if k = r.NodeName then
            ((r.ContainerResources.drop i).take cms.length).map (fun cr => cr.ResourceRequests)
          else []) ∧
        (∀ k, st'.nodeLimits k = st.nodeLimits k ++
          if k = r.NodeName then
            ((r.ContainerResources.drop i).take cms.length).map (fun cr => cr.ResourceLimits)
          else []) := by
  intro cms
  induction cms with
  | nil =>
    intro i st _
    refine ⟨st, rfl, by simp, ?_, ?_⟩ <;> intro k <;> split <;> simp
  | cons cm cms ih =>
    intro i st h
    simp only [List.length_cons] at h
    have hi : i < r.ContainerResources.length := by omega
    obtain ⟨st', hrun, hdata, hreq, hlim⟩ :=
      ih (i + 1)
        { data := st.data ++ [podRow n r cm r.ContainerResources[i]]
          nodeRequests := st.nodeRequests.append r.NodeName r.ContainerResources[i].ResourceRequests
          nodeLimits := st.nodeLimits.append r.NodeName r.ContainerResources[i].ResourceLimits }
        (by omega)
    refine ⟨st', ?_, ?_, ?_, ?_⟩
    · simp only [containerLoop, List.getElem?_eq_getElem hi]
      exact hrun
    · rw [hdata, List.drop_eq_getElem_cons hi]
      simp only [List.zipWith_cons_cons, List.append_assoc, List.singleton_append]
    · intro k
      rw [hreq k, List.drop_eq_getElem_cons hi]
      by_cases hk : k = r.NodeName
      · simp only [NodeAcc.append, hk, if_true, List.length_cons, List.take_succ_cons,
          List.map_cons, List.append_assoc, List.singleton_append]
      · simp only [NodeAcc.append, hk, if_false]
    · intro k
      rw [hlim k, List.drop_eq_getElem_cons hi]
      by_cases hk : k = r.NodeName
      · simp only [NodeAcc.append, hk, if_true, List.length_cons, List.take_succ_cons,
          List.map_cons, List.append_assoc, List.singleton_append]
      · simp only [NodeAcc.append, hk, if_false]

/-- The inner loop panics when it reaches an index the spec does not have. -/
theorem containerLoop_error (n : GoString) (r : PodResources) :
    ∀ (cms : List ContainerMetrics) (i : Nat) (st : LoopState),
      i ≤ r.ContainerResources.length → r.ContainerResources.length < i + cms.length →
      containerLoop n r i cms st
        = Except.error ⟨r.ContainerResources.length, r.ContainerResources.length⟩ := by
  intro cms
  induction cms with
  | nil =>
    intro i st h1 h2
    simp only [List.length_nil] at h2
    omega
  | cons cm cms ih =>
    intro i st h1 h2
    simp only [List.length_cons] at h2
    by_cases hi : i < r.ContainerResources.length
    · simp only [containerLoop, List.getElem?_eq_getElem hi]
      exact ih (i + 1) _ (by omega) (by omega)
    · have hnone : r.ContainerResources[i]? = none := List.getElem?_eq_none (by omega)
      have hi' : i = r.ContainerResources.length := by omega
      simp only [containerLoop, hnone]
      rw [hi']

/-- The paired containers of the pods on node `k`, one pod more. -/
theorem pairedOn_cons (ps : GoMap PodResources) (k n : GoString) (m : PodMetrics)
    (rest : GoMap PodMetrics) :
    pairedOn ps k ((n, m) :: rest) =
      (if k = (GoMap.get PodResources.zero ps n).NodeName then
        pairedContainers m (GoMap.get PodResources.zero ps n) else []) ++ pairedOn ps k rest := by
  unfold pairedOn podsOn
  by_cases hk : (GoMap.get PodResources.zero ps n).NodeName = k
  · rw [if_pos hk.symm, List.filter_cons_of_pos (by simpa using hk), List.flatMap_cons]
  · rw [if_neg (fun h => hk h.symm), List.filter_cons_of_neg (by simpa using hk),
      List.nil_append]

/-- The pod loop succeeds on aligned mappings, and its three variables then
hold the positional join. -/
theorem podLoop_ok (ps : GoMap PodResources) :
    ∀ (pm : GoMap PodMetrics) (st : LoopState), Aligned pm ps →
      ∃ st', podLoop ps pm st = Except.ok st' ∧
        st'.data = st.data ++ joinRows ps pm ∧
        (∀ k, st'.nodeRequests k = st.nodeRequests k ++ requestsOn ps pm k) ∧
        (∀ k, st'.nodeLimits k = st.nodeLimits k ++ limitsOn ps pm k) := by
  intro pm
  induction pm with
  | nil =>
    intro st _
    exact ⟨st, rfl, by simp [joinRows], by simp [requestsOn, pairedOn, podsOn],
      by simp [limitsOn, pairedOn, podsOn]⟩
  | cons e rest ih =>
    obtain ⟨n, m⟩ := e
    intro st hal
    have hhead : 0 + m.ContainerMetrics.length ≤
        (GoMap.get PodResources.zero ps n).ContainerResources.length := by
      have := hal (n, m) (List.mem_cons_self _ _)
      simpa using this
    have htail : Aligned rest ps := fun e he => hal e (List.mem_cons_of_mem _ he)
    obtain ⟨st1, hrun1, hdata1, hreq1, hlim1⟩ :=
      containerLoop_ok n (GoMap.get PodResources.zero ps n) m.ContainerMetrics 0 st hhead
    obtain ⟨st2, hrun2, hdata2, hreq2, hlim2⟩ := ih st1 htail
    refine ⟨st2, ?_, ?_, ?_, ?_⟩
    · simp only [podLoop, hrun1]
      exact hrun2
    · rw [hdata2, hdata1]
      simp only [joinRows, positionalRows, List.flatMap_cons, List.drop_zero, List.append_assoc]
    · intro k
      rw [hreq2 k, hreq1 k]
      simp only [requestsOn, pairedOn_cons, pairedContainers, List.drop_zero, List.map_append,
        List.append_assoc]
      split <;> rfl
    · intro k
      rw [hlim2 k, hlim1 k]
      simp only [limitsOn, pairedOn_cons, pairedContainers, List.drop_zero, List.map_append,
        List.append_assoc]
      split <;> rfl

/-- The pod loop panics as soon as one pod of the usage mapping has fewer
declared than observed containers. -/
theorem podLoop_error (ps : GoMap PodResources) :
    ∀ (pm : GoMap PodMetrics) (st : LoopState), ¬ Aligned pm ps →
      ∃ e, podLoop ps pm st = Except.error e := by
  intro pm
  induction pm with
  | nil =>
    intro st hal
    exact absurd (fun e he => by cases he) hal
  | cons e rest ih =>
    obtain ⟨n, m⟩ := e
    intro st hal
    by_cases hhead : m.ContainerMetrics.length ≤
        (GoMap.get PodResources.zero ps n).ContainerResources.length
    · have htail : ¬ Aligned rest ps := by
        intro ht
        apply hal
        intro e he
        rcases List.mem_cons.mp he with h | h
        · subst h; exact hhead
        · exact ht e h
      obtain ⟨st1, hrun1, _⟩ :=
        containerLoop_ok n (GoMap.get PodResources.zero ps n) m.ContainerMetrics 0 st
          (by omega)
      obtain ⟨err, herr⟩ := ih st1 htail
      exact ⟨err, by simp only [podLoop, hrun1]; exact herr⟩
    · have herr := containerLoop_error n (GoMap.get PodResources.zero ps n)
        m.ContainerMetrics 0 st (Nat.zero_le _) (by omega)
      exact ⟨⟨(GoMap.get PodResources.zero ps n).ContainerResources.length,
        (GoMap.get PodResources.zero ps n).ContainerResources.length⟩,
        by simp only [podLoop, herr]⟩

/-- On aligned mappings `Gather` returns the positional join and one node row
per entry of the node-usage mapping. -/
theorem Gather_ok (nm : GoMap NodeMetrics) (nr : GoMap NodeResources) (pm : GoMap PodMetrics)
    (ps : GoMap PodResources) (hal : Aligned pm ps) :
    Gather nm nr pm ps =
      Except.ok ⟨joinRows ps pm, nodeLoop nm nr (requestsOn ps pm) (limitsOn ps pm)⟩ := by
  obtain ⟨st, hrun, hdata, hreq, hlim⟩ := podLoop_ok ps pm LoopState.init hal
  have h1 : st.nodeRequests = requestsOn ps pm := by
    funext k
    rw [hreq k]
    simp [LoopState.init]
  have h2 : st.nodeLimits = limitsOn ps pm := by
    funext k
    rw [hlim k]
    simp [LoopState.init]
  have h3 : st.data = joinRows ps pm := by
    rw [hdata]
    simp [LoopState.init]
  simp only [Gather, hrun, h1, h2, h3]

/-- Without aligned mappings `Gather` panics, and renders nothing. -/
theorem Gather_error (nm : GoMap NodeMetrics) (nr : GoMap NodeResources) (pm : GoMap PodMetrics)
    (ps : GoMap PodResources) (hal : ¬ Aligned pm ps) :
    ∃ e, Gather nm nr pm ps = Except.error e := by
  obtain ⟨e, he⟩ := podLoop_error ps pm LoopState.init hal
  exact ⟨e, by simp only [Gather, he]⟩

/-- The pod loop reads the spec mapping only at the pod names of the usage
mapping. -/
theorem podLoop_congr (ps1 ps2 : GoMap PodResources) :
    ∀ (pm : GoMap PodMetrics) (st : LoopState),
      (∀ e ∈ pm, GoMap.find ps1 e.1 = GoMap.find ps2 e.1) →
      podLoop ps1 pm st = podLoop ps2 pm st := by
  intro pm
  induction pm with
  | nil => intro st _; rfl
  | cons e rest ih =>
    obtain ⟨n, m⟩ := e
    intro st h
    have hn : GoMap.get PodResources.zero ps1 n = GoMap.get PodResources.zero ps2 n := by
      have := h (n, m) (List.mem_cons_self _ _)
      simp only [GoMap.get]
      rw [this]
    simp only [podLoop, hn]
    cases containerLoop n (GoMap.get PodResources.zero ps2 n) 0 m.ContainerMetrics st with
    | error e => rfl
    | ok st1 => exact ih st1 (fun e he => h e (List.mem_cons_of_mem _ he))

/-- An element of `zipWith f l₁ l₂` is `f a b` for some `a` of `l₁`. -/
theorem mem_zipWith_left {α β γ : Type} (f : α → β → γ) :
    ∀ (l₁ : List α) (l₂ : List β) (x : γ), x ∈ List.zipWith f l₁ l₂ →
      ∃ a ∈ l₁, ∃ b ∈ l₂, x = f a b := by
  intro l₁
  induction l₁ with
  | nil => intro l₂ x hx; simp at hx
  | cons a as ih =>
    intro l₂ x hx
    cases l₂ with
    | nil => simp at hx
    | cons b bs =>
      rw [List.zipWith_cons_cons, List.mem_cons] at hx
      rcases hx with h | h
      · exact ⟨a, List.mem_cons_self _ _, b, List.mem_cons_self _ _, h⟩
      · obtain ⟨a', ha', b', hb', hx'⟩ := ih bs x h
        exact ⟨a', List.mem_cons_of_mem _ ha', b', List.mem_cons_of_mem _ hb', hx'⟩

/-- The element at index `i` of a positional pairing. -/
theorem getElem?_zipWith_some {α β γ : Type} (f : α → β → γ) :
    ∀ (l₁ : List α) (l₂ : List β) (i : Nat) (a : α) (b : β),
      l₁[i]? = some a → l₂[i]? = some b → (List.zipWith f l₁ l₂)[i]? = some (f a b) := by
  intro l₁
  induction l₁ with
  | nil => intro l₂ i a b h; simp at h
  | cons x xs ih =>
    intro l₂ i a b h1 h2
    cases l₂ with
    | nil => simp at h2
    | cons y ys =>
      cases i with
      | zero =>
        simp only [List.getElem?_cons_zero, Option.some.injEq] at h1 h2
        simp [h1, h2]
      | succ j =>
        simp only [List.getElem?_cons_succ] at h1 h2
        simpa using ih ys j a b h1 h2

/-! ## The node totals -/

/-- The accessor `Cpu` counts an absent key as zero. -/
theorem Cpu_nano (rl : ResourceList) : rl.Cpu.nano = quantityOrZero rl "cpu".toList := by
  unfold ResourceList.Cpu quantityOrZero
  cases GoMap.find rl "cpu".toList <;> rfl

/-- The accessor `Memory` counts an absent key as zero. -/
theorem Memory_nano (rl : ResourceList) :
    rl.Memory.nano = quantityOrZero rl "memory".toList := by
  unfold ResourceList.Memory quantityOrZero
  cases GoMap.find rl "memory".toList <;> rfl

/-- The value of a running total after the summation loop. -/
theorem foldl_Add_nano (g : ResourceList → Quantity) :
    ∀ (rls : List ResourceList) (q : Quantity),
      (rls.foldl (fun total rl => total.Add (g rl)) q).nano
        = q.nano + (rls.map (fun rl => (g rl).nano)).sum := by
  intro rls
  induction rls with
  | nil => intro q; simp
  | cons rl rest ih =>
    intro q
    rw [List.foldl_cons, ih]
    simp only [Quantity.Add, List.map_cons, List.sum_cons]
    omega

/-- The value of the CPU total of a list of quantity maps. -/
theorem cpuTotal_nano (rls : List ResourceList) :
    (cpuTotal rls).nano = (rls.map (fun rl => quantityOrZero rl "cpu".toList)).sum := by
  unfold cpuTotal
  rw [foldl_Add_nano (fun rl => rl.Cpu)]
  simp [Quantity.zero, Cpu_nano]

/-- The value of the memory total of a list of quantity maps. -/
theorem memTotal_nano (rls : List ResourceList) :
    (memTotal rls).nano = (rls.map (fun rl => quantityOrZero rl "memory".toList)).sum := by
  unfold memTotal
  rw [foldl_Add_nano (fun rl => rl.Memory)]
  simp [Quantity.zero, Memory_nano]

/-- The values of the totals do not depend on the order of the list. -/
theorem totals_perm (l₁ l₂ : List ResourceList) (h : l₁.Perm l₂) :
    (cpuTotal l₁).nano = (cpuTotal l₂).nano ∧ (memTotal l₁).nano = (memTotal l₂).nano := by
  rw [cpuTotal_nano, cpuTotal_nano, memTotal_nano, memTotal_nano]
  exact ⟨(h.map _).sum_eq, (h.map _).sum_eq⟩

/-- The paired containers of a node, for two visiting orders of the pods. -/
theorem pairedOn_perm (ps : GoMap PodResources) (k : GoString) (pm₁ pm₂ : GoMap PodMetrics)
    (h : pm₁.Perm pm₂) : (pairedOn ps k pm₁).Perm (pairedOn ps k pm₂) := by
  unfold pairedOn podsOn
  exact (h.filter _).flatMap_right _

/-- Alignment does not depend on the visiting order of the pods. -/
theorem Aligned_perm (ps : GoMap PodResources) (pm₁ pm₂ : GoMap PodMetrics)
    (h : pm₁.Perm pm₂) : Aligned pm₁ ps ↔ Aligned pm₂ ps := by
  unfold Aligned
  constructor
  · intro hal e he
    exact hal e (h.mem_iff.mpr he)
  · intro hal e he
    exact hal e (h.mem_iff.mp he)

/-! ## The node-level report -/

/-- On aligned mappings the node-level report has one row per entry of the
node-usage mapping. -/
theorem nodeRows_length (nm : GoMap NodeMetrics) (nr : GoMap NodeResources)
    (pm : GoMap PodMetrics) (ps : GoMap PodResources) (hal : Aligned pm ps) :
    ∃ rep, Gather nm nr pm ps = Except.ok rep ∧ rep.nodeRows.length = nm.length :=
  ⟨_, Gather_ok nm nr pm ps hal, by simp [nodeLoop]⟩

/-- C4: with two nodes in the node-usage mapping and a pod whose usage record
has two containers while its spec lists one, `Gather` panics at index 1 in the
pod loop, so no node-level report is produced at all. -/
theorem Gather_no_node_report :
    nodeMetrics2.length = 2 ∧
    Gather nodeMetrics2 nodeResources2 podMetricsTwo podResourcesOne
      = Except.error ⟨1, 1⟩ :=
  ⟨rfl, rfl⟩

/-- C9: with an empty pod-usage mapping `Gather` returns no pod row and one
row per node, each with the totals `cpu=0 mem=0Mi`; and whenever the join
succeeds, a node to which no paired container is accumulated has a row, at its
position in the node-usage mapping, with zero totals and that display. -/
theorem idle_nodes_zero_totals (nm : GoMap NodeMetrics) (nr : GoMap NodeResources)
    (pm : GoMap PodMetrics) (ps : GoMap PodResources) :
    Gather nm nr [] ps = Except.ok
      ⟨[], nm.map (fun e =>
        [ml e.1, formatResourceList e.2.Usage,
         formatResourceList (GoMap.get NodeResources.zero nr e.1).Allocatable,
         "cpu=0 mem=0Mi".toList, "cpu=0 mem=0Mi".toList])⟩ ∧
    (Aligned pm ps →
      ∃ rep, Gather nm nr pm ps = Except.ok rep ∧ rep.nodeRows.length = nm.length ∧
        ∀ (i : Nat) (e : GoString × NodeMetrics), nm[i]? = some e →
          pairedOn ps e.1 pm = [] →
          cpuTotal (requestsOn ps pm e.1) = Quantity.zero ∧
          memTotal (requestsOn ps pm e.1) = Quantity.zero ∧
          cpuTotal (limitsOn ps pm e.1) = Quantity.zero ∧
          memTotal (limitsOn ps pm e.1) = Quantity.zero ∧
          rep.nodeRows[i]? = some
            [ml e.1, formatResourceList e.2.Usage,
             formatResourceList (GoMap.get NodeResources.zero nr e.1).Allocatable,
             "cpu=0 mem=0Mi".toList, "cpu=0 mem=0Mi".toList]) := by
  have hzero : totalsString [] = "cpu=0 mem=0Mi".toList := by decide
  constructor
  · have hal : Aligned [] ps := fun e he => by cases he
    rw [Gather_ok nm nr [] ps hal]
    simp only [joinRows, List.flatMap_nil, nodeLoop, nodeRow, requestsOn, limitsOn, pairedOn,
      podsOn, List.filter_nil, List.map_nil, hzero]
  · intro hal
    refine ⟨_, Gather_ok nm nr pm ps hal, by simp [nodeLoop], ?_⟩
    intro i e hi hnone
    have hreq : requestsOn ps pm e.1 = [] := by simp [requestsOn, hnone]
    have hlim : limitsOn ps pm e.1 = [] := by simp [limitsOn, hnone]
    refine ⟨by rw [hreq]; rfl, by rw [hreq]; rfl, by rw [hlim]; rfl, by rw [hlim]; rfl, ?_⟩
    simp only [nodeLoop, List.getElem?_map, hi, Option.map_some', nodeRow, hreq, hlim, hzero]

/-- The empty pod-usage mapping, and the idle node `worker-2` next to the busy
node `worker-1`, for C9. -/
theorem idle_nodes_zero_totals_witness :
    Gather nodeMetrics2 nodeResources2 [] podResourcesAB = Except.ok
      ⟨[], [["worker-1".toList, "cpu=500m mem=105Mi".toList, "cpu=500m mem=105Mi".toList,
              "cpu=0 mem=0Mi".toList, "cpu=0 mem=0Mi".toList],
            ["worker-2".toList, "cpu=250m mem=53Mi".toList, "cpu=500m mem=105Mi".toList,
              "cpu=0 mem=0Mi".toList, "cpu=0 mem=0Mi".toList]]⟩ ∧
    Aligned podMetricsAB podResourcesAB ∧
    ∃ rep, Gather nodeMetrics2 nodeResources2 podMetricsAB podResourcesAB = Except.ok rep ∧
      rep.nodeRows.length = 2 ∧
      rep.nodeRows[1]? = some
        ["worker-2".toList, "cpu=250m mem=53Mi".toList, "cpu=500m mem=105Mi".toList,
         "cpu=0 mem=0Mi".toList, "cpu=0 mem=0Mi".toList] := by
  refine ⟨(idle_nodes_zero_totals nodeMetrics2 nodeResources2 podMetricsAB podResourcesAB).1,
    by decide, ?_⟩
  obtain ⟨rep, hrep, hlen, hrows⟩ :=
    (idle_nodes_zero_totals nodeMetrics2 nodeResources2 podMetricsAB podResourcesAB).2
      (by decide)
  exact ⟨rep, hrep, hlen, (hrows 1 (worker2, ⟨worker2, rlB⟩) rfl (by decide)).2.2.2.2⟩

/-! ## The join of usage and spec -/

/-- C5, as the code has it: on mappings where every usage pod has a spec with
at least as many containers as its usage record, the join does not panic, and
every observed container, at position `i` of its pod, has a declared container
at position `i` and a pod-level row whose usage cell is the formatted observed
usage and whose requests and limits cells are those of that declared
container, whatever the two names are. -/
theorem join_row_at_position (nm : GoMap NodeMetrics) (nr : GoMap NodeResources)
    (pm : GoMap PodMetrics) (ps : GoMap PodResources) (hal : Aligned pm ps) :
    ∃ rep, Gather nm nr pm ps = Except.ok rep ∧
      ∀ e ∈ pm, ∀ (i : Nat) (cm : ContainerMetrics), e.2.ContainerMetrics[i]? = some cm →
        ∃ cr, (GoMap.get PodResources.zero ps e.1).ContainerResources[i]? = some cr ∧
          ∃ row ∈ rep.podRows,
            row[1]? = some (ml e.1) ∧ row[2]? = some (ml cm.Name) ∧
            row[3]? = some (formatResourceList cm.Usage) ∧
            row[4]? = some (formatResourceList cr.ResourceRequests) ∧
            row[5]? = some (formatResourceList cr.ResourceLimits) := by
  refine ⟨_, Gather_ok nm nr pm ps hal, ?_⟩
  intro e he i cm hcm
  have hi : i < e.2.ContainerMetrics.length := by
    by_contra hlt
    rw [List.getElem?_eq_none (by omega)] at hcm
    cases hcm
  have hi2 : i < (GoMap.get PodResources.zero ps e.1).ContainerResources.length :=
    Nat.lt_of_lt_of_le hi (hal e he)
  refine ⟨(GoMap.get PodResources.zero ps e.1).ContainerResources[i],
    List.getElem?_eq_getElem hi2, ?_⟩
  refine ⟨podRow e.1 (GoMap.get PodResources.zero ps e.1) cm
    (GoMap.get PodResources.zero ps e.1).ContainerResources[i], ?_, rfl, rfl, rfl, rfl, rfl⟩
  simp only [joinRows, List.mem_flatMap]
  refine ⟨e, he, ?_⟩
  exact List.getElem?_mem
    (getElem?_zipWith_some _ _ _ i cm _ hcm (List.getElem?_eq_getElem hi2))

/-- A pod whose declared containers are named `main` and `proxy` while the
observed ones are named `app` and `sidecar`, for C5. -/
theorem join_row_at_position_witness :
    Aligned podMetricsTwo podResourcesRenamed ∧
    ∃ rep, Gather nodeMetrics2 nodeResources2 podMetricsTwo podResourcesRenamed = Except.ok rep ∧
      ∃ row ∈ rep.podRows,
        row[1]? = some "web".toList ∧ row[2]? = some "sidecar".toList ∧
        row[3]? = some "cpu=20m mem=32Mi".toList ∧
        row[4]? = some "cpu=250m mem=53Mi".toList ∧
        row[5]? = some "cpu=250m mem=53Mi".toList := by
  refine ⟨by decide, ?_⟩
  obtain ⟨rep, hrep, hrows⟩ :=
    join_row_at_position nodeMetrics2 nodeResources2 podMetricsTwo podResourcesRenamed
      (by decide)
  obtain ⟨cr, hcr, row, hrow, h1, h2, h3, h4, h5⟩ :=
    hrows ("web".toList, ⟨"web".toList, [⟨"app".toList, rlU⟩, ⟨"sidecar".toList, rlU⟩]⟩)
      (List.mem_cons_self _ _) 1 ⟨"sidecar".toList, rlU⟩ rfl
  have hcr' : cr = ⟨"proxy".toList, rlB, rlB⟩ := by
    have : some cr = some (⟨"proxy".toList, rlB, rlB⟩ : ContainerResources) := hcr.symm.trans rfl
    exact Option.some.inj this
  subst hcr'
  exact ⟨rep, hrep, row, hrow, h1, h2, h3, h4, h5⟩

/-- C5 fails as stated: a pod of the usage mapping without a spec entry makes
`Gather` panic at index 0, and a container whose name is not in the spec but
whose position is gets the requests and limits of the declared container at
that position rather than the zero display `cpu=0 mem=0Mi`. -/
theorem join_panics_or_pairs_by_position :
    Gather nodeMetrics2 nodeResources2 podMetricsTwo [] = Except.error ⟨0, 0⟩ ∧
    Gather nodeMetrics2 nodeResources2 podMetricsTwo podResourcesRenamed = Except.ok
      ⟨[["default".toList, "web".toList, "app".toList, "cpu=20m mem=32Mi".toList,
          "cpu=100m mem=53Mi".toList, "cpu=500m mem=105Mi".toList],
        ["default".toList, "web".toList, "sidecar".toList, "cpu=20m mem=32Mi".toList,
          "cpu=250m mem=53Mi".toList, "cpu=250m mem=53Mi".toList]],
       [["worker-1".toList, "cpu=500m mem=105Mi".toList, "cpu=500m mem=105Mi".toList,
          "cpu=350m mem=105Mi".toList, "cpu=750m mem=158Mi".toList],
        ["worker-2".toList, "cpu=250m mem=53Mi".toList, "cpu=500m mem=105Mi".toList,
          "cpu=0 mem=0Mi".toList, "cpu=0 mem=0Mi".toList]]⟩ :=
  ⟨rfl, rfl⟩

/-- C6, as the code has it: on aligned mappings the pod-level rows are the
positional pairing of each pod's observed containers with its declared
containers (row `i` of a pod shows declared container `i`), and the lists
accumulated per node are the requests and limits of the first
`len(m.ContainerMetrics)` declared containers of the pods on that node. -/
theorem rows_pair_by_position (nm : GoMap NodeMetrics) (nr : GoMap NodeResources)
    (pm : GoMap PodMetrics) (ps : GoMap PodResources) (hal : Aligned pm ps) :
    ∃ st, podLoop ps pm LoopState.init = Except.ok st ∧
      Gather nm nr pm ps = Except.ok ⟨st.data, nodeLoop nm nr st.nodeRequests st.nodeLimits⟩ ∧
      st.data = pm.flatMap (fun e =>
        List.zipWith (podRow e.1 (GoMap.get PodResources.zero ps e.1)) e.2.ContainerMetrics
          (GoMap.get PodResources.zero ps e.1).ContainerResources) ∧
      (∀ k, st.nodeRequests k = (pairedOn ps k pm).map (fun cr => cr.ResourceRequests)) ∧
      (∀ k, st.nodeLimits k = (pairedOn ps k pm).map (fun cr => cr.ResourceLimits)) ∧
      ∀ e ∈ pm, ∀ (i : Nat) (cm : ContainerMetrics) (cr : ContainerResources),
        e.2.ContainerMetrics[i]? = some cm →
        (GoMap.get PodResources.zero ps e.1).ContainerResources[i]? = some cr →
        (List.zipWith (podRow e.1 (GoMap.get PodResources.zero ps e.1)) e.2.ContainerMetrics
          (GoMap.get PodResources.zero ps e.1).ContainerResources)[i]? = some
          [ml (GoMap.get PodResources.zero ps e.1).Namespace, ml e.1, ml cm.Name,
           formatResourceList cm.Usage, formatResourceList cr.ResourceRequests,
           formatResourceList cr.ResourceLimits] := by
  obtain ⟨st, hrun, hdata, hreq, hlim⟩ := podLoop_ok ps pm LoopState.init hal
  refine ⟨st, hrun, by simp only [Gather, hrun], ?_, ?_, ?_, ?_⟩
  · rw [hdata]
    simp [LoopState.init, joinRows, positionalRows]
  · intro k
    rw [hreq k]
    simp [LoopState.init, requestsOn]
  · intro k
    rw [hlim k]
    simp [LoopState.init, limitsOn]
  · intro e _ i cm cr hcm hcr
    exact getElem?_zipWith_some _ _ _ i cm cr hcm hcr

/-- The pod `web` with the spec order `sidecar`, `app`: the row of the observed
container `app` shows the requests and limits declared for `sidecar`, for C6. -/
theorem rows_pair_by_position_witness :
    Aligned podMetricsTwo podResourcesTwoSwapped ∧
    ∃ st, podLoop podResourcesTwoSwapped podMetricsTwo LoopState.init = Except.ok st ∧
      st.data =
        [["default".toList, "web".toList, "app".toList, "cpu=20m mem=32Mi".toList,
          "cpu=250m mem=53Mi".toList, "cpu=250m mem=53Mi".toList],
         ["default".toList, "web".toList, "sidecar".toList, "cpu=20m mem=32Mi".toList,
          "cpu=100m mem=53Mi".toList, "cpu=500m mem=105Mi".toList]] ∧
      st.nodeRequests worker1 = [rlB, rlC] := by
  refine ⟨by decide, ?_⟩
  obtain ⟨st, hrun, _, hdata, hreq, _⟩ :=
    rows_pair_by_position nodeMetrics2 nodeResources2 podMetricsTwo podResourcesTwoSwapped
      (by decide)
  exact ⟨st, hrun, hdata.trans (by decide), (hreq worker1).trans (by decide)⟩

/-- C6 fails as stated: permuting the container list of the spec of `web`
changes both pod-level rows; with the order `sidecar`, `app` the row of `app`
shows `cpu=250m`, the request declared for `sidecar`. -/
theorem permuted_spec_changes_rows :
    (podResourcesTwoSwapped.map (fun e => e.2.ContainerResources)).Forall₂ List.Perm
      (podResourcesTwo.map (fun e => e.2.ContainerResources)) ∧
    (Gather nodeMetrics2 nodeResources2 podMetricsTwo podResourcesTwo).toOption.map
        (fun rep => rep.podRows) = some
      [["default".toList, "web".toList, "app".toList, "cpu=20m mem=32Mi".toList,
        "cpu=100m mem=53Mi".toList, "cpu=500m mem=105Mi".toList],
       ["default".toList, "web".toList, "sidecar".toList, "cpu=20m mem=32Mi".toList,
        "cpu=250m mem=53Mi".toList, "cpu=250m mem=53Mi".toList]] ∧
    (Gather nodeMetrics2 nodeResources2 podMetricsTwo podResourcesTwoSwapped).toOption.map
        (fun rep => rep.podRows) = some
      [["default".toList, "web".toList, "app".toList, "cpu=20m mem=32Mi".toList,
        "cpu=250m mem=53Mi".toList, "cpu=250m mem=53Mi".toList],
       ["default".toList, "web".toList, "sidecar".toList, "cpu=20m mem=32Mi".toList,
        "cpu=100m mem=53Mi".toList, "cpu=500m mem=105Mi".toList]] ∧
    (Gather nodeMetrics2 nodeResources2 podMetricsTwo podResourcesTwo).toOption.map
        (fun rep => rep.podRows) ≠
      (Gather nodeMetrics2 nodeResources2 podMetricsTwo podResourcesTwoSwapped).toOption.map
        (fun rep => rep.podRows) := by
  refine ⟨?_, rfl, rfl, by decide⟩
  refine List.Forall₂.cons ?_ List.Forall₂.nil
  exact List.Perm.swap _ _ []

/-! ## Per-node sums -/

/-- C7: when every pod of the usage mapping has a spec with at least as many
containers as its usage record, `Gather` returns, and for every node name `n`
the CPU and memory totals under Resource Requests (and under Resource Limits)
are the sums, an absent key counting as zero, of the CPU and memory requests
(limits) of the paired containers of the usage-mapping pods whose spec
`nodeName` is `n`. -/
theorem node_totals_are_sums (nm : GoMap NodeMetrics) (nr : GoMap NodeResources)
    (pm : GoMap PodMetrics) (ps : GoMap PodResources) (hal : Aligned pm ps) :
    ∃ st, podLoop ps pm LoopState.init = Except.ok st ∧
      Gather nm nr pm ps = Except.ok ⟨st.data, nodeLoop nm nr st.nodeRequests st.nodeLimits⟩ ∧
      ∀ n : GoString,
        (cpuTotal (st.nodeRequests n)).nano =
          ((pairedOn ps n pm).map
            (fun cr => quantityOrZero cr.ResourceRequests "cpu".toList)).sum ∧
        (memTotal (st.nodeRequests n)).nano =
          ((pairedOn ps n pm).map
            (fun cr => quantityOrZero cr.ResourceRequests "memory".toList)).sum ∧
        (cpuTotal (st.nodeLimits n)).nano =
          ((pairedOn ps n pm).map
            (fun cr => quantityOrZero cr.ResourceLimits "cpu".toList)).sum ∧
        (memTotal (st.nodeLimits n)).nano =
          ((pairedOn ps n pm).map
            (fun cr => quantityOrZero cr.ResourceLimits "memory".toList)).sum := by
  obtain ⟨st, hrun, _, hreq, hlim⟩ := podLoop_ok ps pm LoopState.init hal
  refine ⟨st, hrun, by simp only [Gather, hrun], ?_⟩
  intro n
  have h1 : st.nodeRequests n = (pairedOn ps n pm).map (fun cr => cr.ResourceRequests) := by
    rw [hreq n]
    simp [LoopState.init, requestsOn]
  have h2 : st.nodeLimits n = (pairedOn ps n pm).map (fun cr => cr.ResourceLimits) := by
    rw [hlim n]
    simp [LoopState.init, limitsOn]
  rw [h1, h2, cpuTotal_nano, memTotal_nano, cpuTotal_nano, memTotal_nano]
  simp only [List.map_map, Function.comp_def, and_self]

/-- The node `worker-1` with two pods of one container each requesting
`cpu=100m, mem=50Mi`: the totals are 200m and 100Mi, for C7. -/
theorem node_totals_are_sums_witness :
    Aligned podMetricsAB podResourcesAB ∧
    ∃ st, podLoop podResourcesAB podMetricsAB LoopState.init = Except.ok st ∧
      (cpuTotal (st.nodeRequests worker1)).nano = (milli 200).nano ∧
      (memTotal (st.nodeRequests worker1)).nano = (mebi 100).nano := by
  refine ⟨by decide, ?_⟩
  obtain ⟨st, hrun, _, htot⟩ :=
    node_totals_are_sums nodeMetrics2 nodeResources2 podMetricsAB podResourcesAB (by decide)
  exact ⟨st, hrun, (htot worker1).1.trans (by decide), (htot worker1).2.1.trans (by decide)⟩

/-- C8: for two visiting orders of the pods of the usage mapping the pod loop
either succeeds for both, and then for every node the accumulated lists are
permutations of each other and the summed CPU and memory requests and limits
are equal as numbers, or panics for both; and the values of the totals of a
list, and the memory figure displayed for it, do not change when the list is
permuted. -/
theorem totals_order_invariant (ps : GoMap PodResources) (pm₁ pm₂ : GoMap PodMetrics)
    (hperm : pm₁.Perm pm₂) :
    (Aligned pm₁ ps →
      ∃ st₁ st₂, podLoop ps pm₁ LoopState.init = Except.ok st₁ ∧
        podLoop ps pm₂ LoopState.init = Except.ok st₂ ∧
        ∀ n : GoString,
          (st₁.nodeRequests n).Perm (st₂.nodeRequests n) ∧
          (st₁.nodeLimits n).Perm (st₂.nodeLimits n) ∧
          (cpuTotal (st₁.nodeRequests n)).nano = (cpuTotal (st₂.nodeRequests n)).nano ∧
          (memTotal (st₁.nodeRequests n)).nano = (memTotal (st₂.nodeRequests n)).nano ∧
          (cpuTotal (st₁.nodeLimits n)).nano = (cpuTotal (st₂.nodeLimits n)).nano ∧
          (memTotal (st₁.nodeLimits n)).nano = (memTotal (st₂.nodeLimits n)).nano) ∧
    (¬ Aligned pm₁ ps →
      (∃ e, podLoop ps pm₁ LoopState.init = Except.error e) ∧
      (∃ e, podLoop ps pm₂ LoopState.init = Except.error e)) ∧
    (∀ l₁ l₂ : List ResourceList, l₁.Perm l₂ →
      (cpuTotal l₁).nano = (cpuTotal l₂).nano ∧ (memTotal l₁).nano = (memTotal l₂).nano ∧
      (memTotal l₁).ScaledValue Quantity.Mega = (memTotal l₂).ScaledValue Quantity.Mega) := by
  refine ⟨?_, ?_, fun l₁ l₂ h => ⟨(totals_perm l₁ l₂ h).1, (totals_perm l₁ l₂ h).2, ?_⟩⟩
  rotate_left 2
  · simp only [Quantity.ScaledValue, (totals_perm l₁ l₂ h).2]
  · intro hal
    have hal₂ : Aligned pm₂ ps := (Aligned_perm ps pm₁ pm₂ hperm).mp hal
    obtain ⟨st₁, hrun₁, _, hreq₁, hlim₁⟩ := podLoop_ok ps pm₁ LoopState.init hal
    obtain ⟨st₂, hrun₂, _, hreq₂, hlim₂⟩ := podLoop_ok ps pm₂ LoopState.init hal₂
    refine ⟨st₁, st₂, hrun₁, hrun₂, ?_⟩
    intro n
    have hp := pairedOn_perm ps n pm₁ pm₂ hperm
    have hr : (st₁.nodeRequests n).Perm (st₂.nodeRequests n) := by
      rw [hreq₁ n, hreq₂ n]
      simpa [LoopState.init, requestsOn] using hp.map _
    have hl : (st₁.nodeLimits n).Perm (st₂.nodeLimits n) := by
      rw [hlim₁ n, hlim₂ n]
      simpa [LoopState.init, limitsOn] using hp.map _
    exact ⟨hr, hl, (totals_perm _ _ hr).1, (totals_perm _ _ hr).2, (totals_perm _ _ hl).1,
      (totals_perm _ _ hl).2⟩
  · intro hal
    have hal₂ : ¬ Aligned pm₂ ps := fun h => hal ((Aligned_perm ps pm₁ pm₂ hperm).mpr h)
    exact ⟨podLoop_error ps pm₁ LoopState.init hal, podLoop_error ps pm₂ LoopState.init hal₂⟩

/-- The pods `pod-a` and `pod-b` visited in both orders, for C8. -/
theorem totals_order_invariant_witness :
    podMetricsAB.Perm podMetricsBA ∧ Aligned podMetricsAB podResourcesAB ∧
    ∃ st₁ st₂, podLoop podResourcesAB podMetricsAB LoopState.init = Except.ok st₁ ∧
      podLoop podResourcesAB podMetricsBA LoopState.init = Except.ok st₂ ∧
      (cpuTotal (st₁.nodeRequests worker1)).nano = (cpuTotal (st₂.nodeRequests worker1)).nano ∧
      (memTotal (st₁.nodeLimits worker1)).nano = (memTotal (st₂.nodeLimits worker1)).nano := by
  have hperm : podMetricsAB.Perm podMetricsBA := List.Perm.swap _ _ []
  refine ⟨hperm, by decide, ?_⟩
  obtain ⟨st₁, st₂, h₁, h₂, htot⟩ :=
    (totals_order_invariant podResourcesAB podMetricsAB podMetricsBA hperm).1 (by decide)
  exact ⟨st₁, st₂, h₁, h₂, (htot worker1).2.2.1, (htot worker1).2.2.2.2.2⟩

/-! ## Pods with a spec and no usage -/

/-- C10: the pod loop reads the spec mapping only at the pod names of the
usage mapping: two spec mappings that agree there give the same loop result
(rows and accumulated lists) and the same report; adding the spec of a pod
that has no usage record changes neither; and every pod-level row carries the
name of a pod of the usage mapping. -/
theorem only_usage_pods_are_joined (nm : GoMap NodeMetrics) (nr : GoMap NodeResources)
    (pm : GoMap PodMetrics) (ps₁ ps₂ : GoMap PodResources) :
    ((∀ e ∈ pm, GoMap.find ps₁ e.1 = GoMap.find ps₂ e.1) →
      podLoop ps₁ pm LoopState.init = podLoop ps₂ pm LoopState.init ∧
      Gather nm nr pm ps₁ = Gather nm nr pm ps₂) ∧
    (∀ (p : GoString) (spec : PodResources), (∀ e ∈ pm, e.1 ≠ p) →
      podLoop ((p, spec) :: ps₁) pm LoopState.init = podLoop ps₁ pm LoopState.init ∧
      Gather nm nr pm ((p, spec) :: ps₁) = Gather nm nr pm ps₁) ∧
    (∀ rep, Gather nm nr pm ps₁ = Except.ok rep →
      ∀ row ∈ rep.podRows, ∃ e ∈ pm, row[1]? = some (ml e.1)) := by
  have hcongr : ∀ ps ps' : GoMap PodResources,
      (∀ e ∈ pm, GoMap.find ps e.1 = GoMap.find ps' e.1) →
      podLoop ps pm LoopState.init = podLoop ps' pm LoopState.init ∧
      Gather nm nr pm ps = Gather nm nr pm ps' := by
    intro ps ps' h
    have hl := podLoop_congr ps ps' pm LoopState.init h
    exact ⟨hl, by simp only [Gather, hl]⟩
  refine ⟨hcongr ps₁ ps₂, ?_, ?_⟩
  · intro p spec hp
    apply hcongr
    intro e he
    have hne : ¬ p = e.1 := fun h => hp e he h.symm
    simp only [GoMap.find, hne, if_false]
  · intro rep hrep row hrow
    have hal : Aligned pm ps₁ := by
      by_contra hna
      obtain ⟨err, herr⟩ := Gather_error nm nr pm ps₁ hna
      rw [herr] at hrep
      cases hrep
    rw [Gather_ok nm nr pm ps₁ hal] at hrep
    have hrows : rep.podRows = joinRows ps₁ pm := by
      cases hrep
      rfl
    rw [hrows] at hrow
    simp only [joinRows, List.mem_flatMap] at hrow
    obtain ⟨e, he, hmem⟩ := hrow
    obtain ⟨cm, _, cr, _, hx⟩ := mem_zipWith_left _ _ _ row hmem
    exact ⟨e, he, by rw [hx]; rfl⟩

/-- The spec of `pod-z`, a pod without usage, added to the spec mapping, for
C10: the report is the same and has no row for `pod-z`. -/
theorem only_usage_pods_are_joined_witness :
    (∀ e ∈ podMetricsAB, e.1 ≠ "pod-z".toList) ∧
    Gather nodeMetrics2 nodeResources2 podMetricsAB (("pod-z".toList, podSpecOnly) :: podResourcesAB)
      = Gather nodeMetrics2 nodeResources2 podMetricsAB podResourcesAB ∧
    (Gather nodeMetrics2 nodeResources2 podMetricsAB
        (("pod-z".toList, podSpecOnly) :: podResourcesAB)).toOption.map (fun rep => rep.podRows)
      = some
        [["default".toList, "pod-a".toList, "app".toList, "cpu=20m mem=32Mi".toList,
          "cpu=100m mem=53Mi".toList, "cpu=500m mem=105Mi".toList],
         ["default".toList, "pod-b".toList, "app".toList, "cpu=20m mem=32Mi".toList,
          "cpu=100m mem=53Mi".toList, "cpu=500m mem=105Mi".toList]] :=
  ⟨by decide,
   ((only_usage_pods_are_joined nodeMetrics2 nodeResources2 podMetricsAB podResourcesAB
      podResourcesAB).2.1 "pod-z".toList podSpecOnly (by decide)).2,
   rfl⟩

end KubeResources
